import Mathlib

/-!
# The Entity model of the mux routing layer

A shallow embedding of `entity.go` (package `mux`): the operation enumeration with
its HTTP method and path builder, the pipeline handler types, and the `Entity`
builder with its chained mutators.

Conventions of the embedding.

* A Go method that mutates its receiver and returns it becomes a function from the
  old state to the new state.  A method that can panic returns `Except Panic Entity`.
* A value of a Go interface type is an `Option`: `none` is the nil interface, and
  `some h` is a non-nil value, described by the behaviour of its method.
* A Go map is an `Option` of a partial function: `none` is the nil map, `some m` an
  allocated map in which `m k = none` means that the key `k` is absent.
* A Go slice compared against nil is an `Option (List _)`; a slice that is only
  appended to and measured is a `List`.
* Function values are only stored by the builders, never called, so they are total
  Lean functions.  Output written by `fmt.Println` is not part of the state.
-/

set_option linter.dupNamespace false

namespace Mux

/-! ## EntityOperation -/

/-- Go `type EntityOperation int`. -/
structure EntityOperation where
  toInt : Int
deriving DecidableEq, Repr

/-- First constant of the `iota` block: value 0. -/
def EntityOperationCreate : EntityOperation := ⟨0⟩
/-- Second constant of the `iota` block: value 1. -/
def EntityOperationUpdate : EntityOperation := ⟨1⟩
/-- Third constant of the `iota` block: value 2. -/
def EntityOperationDelete : EntityOperation := ⟨2⟩
/-- Fourth constant of the `iota` block: value 3. -/
def EntityOperationGet : EntityOperation := ⟨3⟩
/-- Fifth constant of the `iota` block: value 4. -/
def EntityOperationGetList : EntityOperation := ⟨4⟩

/-- Constant `http.MethodPost` of the Go standard library. -/
def MethodPost : String := "POST"
/-- Constant `http.MethodPut` of the Go standard library. -/
def MethodPut : String := "PUT"
/-- Constant `http.MethodDelete` of the Go standard library. -/
def MethodDelete : String := "DELETE"
/-- Constant `http.MethodGet` of the Go standard library. -/
def MethodGet : String := "GET"

/-- Method `HTTPMethod`.  The `switch` tries its cases in order; the body of the
`EntityOperationGet` case is empty and Go cases do not fall through, so control
leaves the `switch` there and reaches the final `return ""`. -/
def EntityOperation.HTTPMethod (op : EntityOperation) : String :=
  if op = EntityOperationCreate then MethodPost
  else if op = EntityOperationUpdate then MethodPut
  else if op = EntityOperationDelete then MethodDelete
  else if op = EntityOperationGet then ""
  else if op = EntityOperationGetList then MethodGet
  else ""

/-- Method `BuildPath`.  `fmt.Sprint` of string operands concatenates them without
separators.  The second parameter is called `prefix` in the source. -/
def EntityOperation.BuildPath (op : EntityOperation) (basepath : String) (pfx : String) :
    String :=
  let pfx := if pfx ≠ "" then pfx ++ "/" else pfx
  let basepath := pfx ++ basepath
  if op = EntityOperationGet ∨ op = EntityOperationUpdate ∨ op = EntityOperationDelete then
    basepath ++ "/" ++ "\x7bid:[0-9]+\x7d"
  else
    basepath

/-! ## Request view and pipeline handler types -/

/-- Go `http.Header`: header names with their values. -/
abbrev Header := List (String × List String)

/-- Go `context.Context`, reduced to the values it carries. -/
structure Context where
  values : List (String × String)
deriving DecidableEq, Repr

/-- Go `interface{}` as returned by `Body`: `none` is nil. -/
abbrev Body := Option String

/-- The parts of `*http.Request` that `RouteDetail` reads. -/
structure Request where
  urlPath : String
  header : Header
  ctx : Context
deriving DecidableEq, Repr

/-- Struct `RouteDetail`. -/
structure RouteDetail where
  req : Request
deriving DecidableEq, Repr

/-- Method `Path`. -/
def RouteDetail.Path (r : RouteDetail) : String := r.req.urlPath

/-- Method `Headers`. -/
def RouteDetail.Headers (r : RouteDetail) : Header := r.req.header

/-- Method `Context`. -/
def RouteDetail.Context (r : RouteDetail) : Context := r.req.ctx

/-- Method `Body`: always nil. -/
def RouteDetail.Body (_r : RouteDetail) : Body := none

/-- Func type `HandleOperation`: status code and response bytes. -/
abbrev HandleOperation := RouteDetail → Int × List UInt8

/-- Non-nil value of interface `OperationHandler`, given by its method. -/
structure OperationHandler where
  HandleOperation : RouteDetail → Int × List UInt8

/-- Method `HandleOperation` of the func type: calls the wrapped function. -/
def HandleOperation.HandleOperation (h : HandleOperation) (r : RouteDetail) :
    Int × List UInt8 :=
  h r

/-- Conversion `HandleOperation(f)` stored in an `OperationHandler` interface. -/
def HandleOperation.toHandler (f : Mux.HandleOperation) : OperationHandler :=
  ⟨HandleOperation.HandleOperation f⟩

/-- Interface `AuthenticateInput`, given by what its three methods return. -/
structure AuthenticateInput where
  Headers : Header
  Path : String
  Context : Context
deriving DecidableEq, Repr

/-- Func type `Authenticate`. -/
abbrev Authenticate := AuthenticateInput → Bool

/-- Non-nil value of interface `Authenticationhandler`, given by its method. -/
structure Authenticationhandler where
  Authenticate : AuthenticateInput → Bool

/-- Method `Authenticate` of the func type. -/
def Authenticate.Authenticate (authHandler : Authenticate) (i : AuthenticateInput) : Bool :=
  authHandler i

/-- Conversion `Authenticate(f)` stored in an `Authenticationhandler` interface. -/
def Authenticate.toHandler (f : Mux.Authenticate) : Authenticationhandler :=
  ⟨Authenticate.Authenticate f⟩

/-- Interface `AuthorizationInput`, given by what its three methods return. -/
structure AuthorizationInput where
  Path : String
  Context : Context
  Body : Body
deriving DecidableEq, Repr

/-- Func type `Authorize`. -/
abbrev Authorize := AuthorizationInput → Bool

/-- Non-nil value of interface `AuthorizationHandler`, given by its method. -/
structure AuthorizationHandler where
  Authorize : AuthorizationInput → Bool

/-- Method `Authorize` of the func type. -/
def Authorize.Authorize (authHandler : Authorize) (i : AuthorizationInput) : Bool :=
  authHandler i

/-- Conversion `Authorize(f)` stored in an `AuthorizationHandler` interface. -/
def Authorize.toHandler (f : Mux.Authorize) : AuthorizationHandler :=
  ⟨Authorize.Authorize f⟩

/-- Interface `ValidationInput`, given by what its method returns. -/
structure ValidationInput where
  Body : Body
deriving DecidableEq, Repr

/-- Func type `Validate`. -/
abbrev Validate := ValidationInput → Bool

/-- Non-nil value of interface `InputValidationHandler`, given by its method. -/
structure InputValidationHandler where
  Validate : ValidationInput → Bool

/-- Method `Validate` of the func type. -/
def Validate.Validate (vHandler : Validate) (i : ValidationInput) : Bool :=
  vHandler i

/-- Conversion `Validate(v)` stored in an `InputValidationHandler` interface. -/
def Validate.toHandler (v : Mux.Validate) : InputValidationHandler :=
  ⟨Validate.Validate v⟩

/-! ## Entity -/

/-- An allocated Go map from operations to `OperationHandler` interface values:
`none` for an absent key, `some none` for a key bound to the nil interface. -/
abbrev HandlerMap := EntityOperation → Option (Option OperationHandler)

/-- The map made by `make(map[EntityOperation]OperationHandler)`. -/
def HandlerMap.empty : HandlerMap := fun _ => none

/-- Struct `Entity`.  The three embedded interfaces carry the name of their type. -/
inductive Entity where
  | mk (basePath : String)
       (operationHandlers : Option HandlerMap)
       (Authenticationhandler : Option Authenticationhandler)
       (operationsForAuthentication : Option (List EntityOperation))
       (AuthorizationHandler : Option AuthorizationHandler)
       (InputValidationHandler : Option InputValidationHandler)
       (children : List Entity)

/-- Field `basePath`. -/
def Entity.basePath : Entity → String
  | .mk b _ _ _ _ _ _ => b

/-- Field `operationHandlers`. -/
def Entity.operationHandlers : Entity → Option HandlerMap
  | .mk _ m _ _ _ _ _ => m

/-- Embedded field `Authenticationhandler`. -/
def Entity.Authenticationhandler : Entity → Option Mux.Authenticationhandler
  | .mk _ _ a _ _ _ _ => a

/-- Field `operationsForAuthentication`. -/
def Entity.operationsForAuthentication : Entity → Option (List EntityOperation)
  | .mk _ _ _ l _ _ _ => l

/-- Embedded field `AuthorizationHandler`. -/
def Entity.AuthorizationHandler : Entity → Option Mux.AuthorizationHandler
  | .mk _ _ _ _ z _ _ => z

/-- Embedded field `InputValidationHandler`. -/
def Entity.InputValidationHandler : Entity → Option Mux.InputValidationHandler
  | .mk _ _ _ _ _ v _ => v

/-- Field `children`. -/
def Entity.children : Entity → List Entity
  | .mk _ _ _ _ _ _ c => c

/-- Go panics that the builders can raise. -/
inductive Panic where
  | assignmentToEntryInNilMap
  | nilPointerDereference
deriving DecidableEq, Repr

/-- Function `NewEntity`: `&Entity{basePath: "/"}`, every other field at its zero
value. -/
def NewEntity : Entity :=
  .mk "/" none none none none none []

/-- Method `WithPath`. -/
def Entity.WithPath (e : Entity) (path : String) : Entity :=
  if e.basePath = "/" then
    .mk path e.operationHandlers e.Authenticationhandler e.operationsForAuthentication
      e.AuthorizationHandler e.InputValidationHandler e.children
  else e

/-- The two-valued map read `v, ok := e.operationHandlers[op]`: `none` when `ok` is
false (also on the nil map), `some v` when the key is present. -/
def Entity.lookupHandler (e : Entity) (op : EntityOperation) :
    Option (Option OperationHandler) :=
  match e.operationHandlers with
  | none => none
  | some m => m op

/-- The assignment `e.operationHandlers[op] = handler` on an allocated map `m`. -/
def Entity.setHandlers (e : Entity) (m : HandlerMap) : Entity :=
  .mk e.basePath (some m) e.Authenticationhandler e.operationsForAuthentication
    e.AuthorizationHandler e.InputValidationHandler e.children

/-- Method `HandleOperation` of `Entity`.  When the key is absent the handler is
assigned into the map as it is; assigning into the nil map panics. -/
def Entity.HandleOperation (e : Entity) (op : EntityOperation)
    (handler : Option OperationHandler) : Except Panic Entity :=
  match e.lookupHandler op with
  | some _ => .ok e
  | none =>
    match e.operationHandlers with
    | none => .error .assignmentToEntryInNilMap
    | some m => .ok (e.setHandlers (Function.update m op (some handler)))

/-- Method `HandleOperationFunc`.  When the key is absent the map is allocated if it
is nil and the adapter of `f` is stored.  The last `fmt.Println` evaluates the method
value `e.operationHandlers[op].HandleOperation`, which panics when the interface
value read from the map is nil. -/
def Entity.HandleOperationFunc (e : Entity) (op : EntityOperation)
    (f : Mux.HandleOperation) : Except Panic Entity :=
  let e1 :=
    match e.lookupHandler op with
    | some _ => e
    | none =>
      let m := match e.operationHandlers with
        | none => HandlerMap.empty
        | some m => m
      e.setHandlers (Function.update m op (some (some (HandleOperation.toHandler f))))
  match e1.lookupHandler op with
  | some (some _) => .ok e1
  | _ => .error .nilPointerDereference

/-- Method `AuthenticateFunc`.  `make([]EntityOperation, 5)` is a slice of length five
holding the zero value `EntityOperation(0)`; `append` adds after these. -/
def Entity.AuthenticateFunc (e : Entity) (authFunc : Mux.Authenticate)
    (requiredOperations : List EntityOperation) : Entity :=
  let a := match e.Authenticationhandler with
    | none => some (Authenticate.toHandler authFunc)
    | some h => some h
  let ops := match e.operationsForAuthentication with
    | none => List.replicate 5 (EntityOperation.mk 0)
    | some l => l
  let ops :=
    if requiredOperations.length = 0 then
      ops ++ [EntityOperationCreate, EntityOperationUpdate, EntityOperationDelete,
        EntityOperationGet, EntityOperationGetList]
    else
      ops ++ requiredOperations
  .mk e.basePath e.operationHandlers a (some ops) e.AuthorizationHandler
    e.InputValidationHandler e.children

/-- Method `Authticate`: the method value `authHandler.Authenticate` panics on the nil
interface. -/
def Entity.Authticate (e : Entity) (authHandler : Option Mux.Authenticationhandler)
    (requiredOperations : List EntityOperation) : Except Panic Entity :=
  match authHandler with
  | none => .error .nilPointerDereference
  | some h => .ok (e.AuthenticateFunc h.Authenticate requiredOperations)

/-- Method `AuthorizeFunc`. -/
def Entity.AuthorizeFunc (e : Entity) (authFunc : Mux.Authorize) : Entity :=
  match e.AuthorizationHandler with
  | none =>
    .mk e.basePath e.operationHandlers e.Authenticationhandler e.operationsForAuthentication
      (some (Authorize.toHandler authFunc)) e.InputValidationHandler e.children
  | some _ => e

/-- Method `Authorize` of `Entity`: the method value `authHandler.Authorize` panics on
the nil interface. -/
def Entity.Authorize (e : Entity) (authHandler : Option Mux.AuthorizationHandler) :
    Except Panic Entity :=
  match authHandler with
  | none => .error .nilPointerDereference
  | some h => .ok (e.AuthorizeFunc h.Authorize)

/-- Method `ValidateFunc`. -/
def Entity.ValidateFunc (e : Entity) (v : Mux.Validate) : Entity :=
  match e.InputValidationHandler with
  | none =>
    .mk e.basePath e.operationHandlers e.Authenticationhandler e.operationsForAuthentication
      e.AuthorizationHandler (some (Validate.toHandler v)) e.children
  | some _ => e

/-- Method `Validate` of `Entity`: the method value `vHandler.Validate` panics on the
nil interface. -/
def Entity.Validate (e : Entity) (vHandler : Option Mux.InputValidationHandler) :
    Except Panic Entity :=
  match vHandler with
  | none => .error .nilPointerDereference
  | some h => .ok (e.ValidateFunc h.Validate)

/-- Method `ForChild`: appends `child`, then the further `children` when there are
any. -/
def Entity.ForChild (e : Entity) (child : Entity) (children : List Entity) : Entity :=
  let cs := e.children ++ [child]
  let cs := if children.length > 0 then cs ++ children else cs
  .mk e.basePath e.operationHandlers e.Authenticationhandler e.operationsForAuthentication
    e.AuthorizationHandler e.InputValidationHandler cs

/-- An operation is recorded for authentication when it occurs in the slice
`operationsForAuthentication` (the nil slice has no elements). -/
def Entity.recordedForAuthentication (e : Entity) (op : EntityOperation) : Prop :=
  op ∈ (e.operationsForAuthentication.getD [])

instance (e : Entity) (op : EntityOperation) : Decidable (e.recordedForAuthentication op) := by
  unfold Entity.recordedForAuthentication
  infer_instance

/-! ## The composed handler of the router -/

/-- View of a `RouteDetail` through interface `AuthenticateInput`: its methods
`Headers`, `Path` and `Context`. -/
def RouteDetail.toAuthenticateInput (r : RouteDetail) : AuthenticateInput :=
  ⟨r.Headers, r.Path, r.Context⟩

/-- View of a `RouteDetail` through interface `AuthorizationInput`: its methods
`Path`, `Context` and `Body`. -/
def RouteDetail.toAuthorizationInput (r : RouteDetail) : AuthorizationInput :=
  ⟨r.Path, r.Context, r.Body⟩

/-- View of a `RouteDetail` through interface `ValidationInput`: its method `Body`. -/
def RouteDetail.toValidationInput (r : RouteDetail) : ValidationInput :=
  ⟨r.Body⟩

/-- The four stages of the request pipeline, in their order. -/
inductive Stage where
  | Authenticate
  | Authorize
  | Validate
  | Handle
deriving DecidableEq, Repr

/-- What the composed handler writes: a rejection issued by a stage, or the status
and body returned by the operation handler. -/
inductive Response where
  | rejected (by_ : Stage)
  | handled (status : Int) (body : List UInt8)
deriving DecidableEq, Repr

/-- Modelled from the spec: the composed handler that the router method `HandleEntity`
registers for an operation; the router is not part of the sources at hand.  If
authentication is required for the operation and an authenticator is present it is
called, and on false the request is rejected; otherwise, if an authorizer is present
it is called, and on false the request is rejected; otherwise, if a validator is
present it is called, and on false the request is rejected; otherwise the operation
handler is invoked and its status and body are written.  The first component lists
the stages invoked, in the order of invocation. -/
def composedHandler (e : Entity) (op : EntityOperation) (handler : OperationHandler)
    (r : RouteDetail) : List Stage × Response :=
  let authRequired : Bool := decide (e.recordedForAuthentication op)
  let afterValidate (tr : List Stage) : List Stage × Response :=
    let out := handler.HandleOperation r
    (tr ++ [Stage.Handle], Response.handled out.1 out.2)
  let afterAuthorize (tr : List Stage) : List Stage × Response :=
    match e.InputValidationHandler with
    | some v =>
      if v.Validate r.toValidationInput then afterValidate (tr ++ [Stage.Validate])
      else (tr ++ [Stage.Validate], Response.rejected Stage.Validate)
    | none => afterValidate tr
  let afterAuthenticate (tr : List Stage) : List Stage × Response :=
    match e.AuthorizationHandler with
    | some z =>
      if z.Authorize r.toAuthorizationInput then afterAuthorize (tr ++ [Stage.Authorize])
      else (tr ++ [Stage.Authorize], Response.rejected Stage.Authorize)
    | none => afterAuthorize tr
  match authRequired, e.Authenticationhandler with
  | true, some a =>
    if a.Authenticate r.toAuthenticateInput then afterAuthenticate [Stage.Authenticate]
    else ([Stage.Authenticate], Response.rejected Stage.Authenticate)
  | _, _ => afterAuthenticate []

/-- The five declared operations, in the order of their declaration. -/
def declaredOperations : List EntityOperation :=
  [EntityOperationCreate, EntityOperationUpdate, EntityOperationDelete, EntityOperationGet,
    EntityOperationGetList]

/-- The key under which the router registers an operation: its HTTP method and its
path. -/
def routeKey (basePath pfx : String) (op : EntityOperation) : String × String :=
  (op.HTTPMethod, op.BuildPath basePath pfx)

/-! ## Sample states -/

/-- An Entity whose allocated map binds Create to the adapter of `f`. -/
def entityWithCreate (f : Mux.HandleOperation) : Entity :=
  NewEntity.setHandlers
    (Function.update HandlerMap.empty EntityOperationCreate
      (some (some (HandleOperation.toHandler f))))

/-- The Entity left by `HandleOperation(Update, nil)` on `entityWithCreate f`: its map binds
Create to the adapter of `f` and Update to the nil interface. -/
def entityWithNilUpdate (f : Mux.HandleOperation) : Entity :=
  (entityWithCreate f).setHandlers
    (Function.update
      (Function.update HandlerMap.empty EntityOperationCreate
        (some (some (HandleOperation.toHandler f))))
      EntityOperationUpdate (some none))

/-- An Entity whose only pipeline stage is a validator that rejects. -/
def entityRejectingValidation : Entity :=
  NewEntity.ValidateFunc (fun _ => false)

/-- A request for the path "/widgets" without headers. -/
def sampleRouteDetail : RouteDetail :=
  ⟨⟨"/widgets", [], ⟨[]⟩⟩⟩

/-- An Entity whose authenticator (required for Create), authorizer and validator all
reject. -/
def entityRejectingAll : Entity :=
  ((NewEntity.AuthenticateFunc (fun _ => false) [EntityOperationCreate]).AuthorizeFunc
    (fun _ => false)).ValidateFunc (fun _ => false)

/-! ## Reference definitions, written from the specification -/

/-- Reference definition of the path of an operation: the base is `prefix/basePath`
when the prefix is non-empty and `basePath` otherwise; Create and GetList use the bare
base, Get, Update and Delete append the numeric identifier segment.  No path is
specified for a value outside the five operations. -/
def BuildPath_reference (op : EntityOperation) (basePath : String) (pfx : String) :
    Option String :=
  let base := if pfx = "" then basePath else pfx ++ "/" ++ basePath
  if op = EntityOperationCreate ∨ op = EntityOperationGetList then some base
  else if op = EntityOperationGet ∨ op = EntityOperationUpdate ∨ op = EntityOperationDelete
  then some (base ++ "/\x7bid:[0-9]+\x7d")
  else none

/-- Reference definition of the base path after `WithPath(path)`: the new path if the
old one is still the default, the old one otherwise. -/
def WithPath_reference (old : String) (path : String) : String :=
  if old = "/" then path else old

/-! ## Helper lemmas -/

theorem lookupHandler_setHandlers (e : Entity) (m : HandlerMap) (op : EntityOperation) :
    (e.setHandlers m).lookupHandler op = m op := rfl

theorem operationHandlers_setHandlers (e : Entity) (m : HandlerMap) :
    (e.setHandlers m).operationHandlers = some m := rfl

/-- Registering through `HandleOperationFunc` where the key is absent stores the
adapter of the function, allocating the map when it is nil. -/
theorem HandleOperationFunc_of_absent (e : Entity) (op : EntityOperation)
    (f : HandleOperation) (habs : e.lookupHandler op = none) :
    e.HandleOperationFunc op f =
      .ok (e.setHandlers (Function.update (e.operationHandlers.getD HandlerMap.empty) op
        (some (some (HandleOperation.toHandler f))))) := by
  unfold Entity.HandleOperationFunc
  cases hm : e.operationHandlers with
  | none => simp [habs, hm, lookupHandler_setHandlers]
  | some m => simp [habs, hm, lookupHandler_setHandlers]

/-- Registering through `HandleOperationFunc` where the key is bound to a non-nil
handler changes nothing. -/
theorem HandleOperationFunc_of_present (e : Entity) (op : EntityOperation)
    (f : HandleOperation) (h0 : OperationHandler)
    (hpres : e.lookupHandler op = some (some h0)) :
    e.HandleOperationFunc op f = .ok e := by
  unfold Entity.HandleOperationFunc
  simp [hpres]

/-- Registering through `HandleOperation` where the key is present changes nothing. -/
theorem HandleOperation_of_present (e : Entity) (op : EntityOperation)
    (h : Option OperationHandler) (v : Option OperationHandler)
    (hpres : e.lookupHandler op = some v) :
    e.HandleOperation op h = .ok e := by
  unfold Entity.HandleOperation
  simp [hpres]

/-- The map read of an Entity in terms of its map, the nil map reading as the empty
one. -/
theorem lookupHandler_eq_getD (e : Entity) (op : EntityOperation) :
    e.lookupHandler op = (e.operationHandlers.getD HandlerMap.empty) op := by
  unfold Entity.lookupHandler
  cases e.operationHandlers <;> rfl

/-- A string followed by a non-empty string differs from the string itself. -/
theorem append_ne_self_of_length_pos (s t : String) (ht : 0 < t.length) : s ++ t ≠ s := by
  intro h
  have hl := congrArg String.length h
  rw [String.length_append] at hl
  omega

/-- Registering through `HandleOperationFunc` where the key is bound to the nil interface
registers nothing and panics on the method value of the nil interface. -/
theorem HandleOperationFunc_of_nil_bound (e : Entity) (op : EntityOperation)
    (f : HandleOperation) (hnil : e.lookupHandler op = some none) :
    e.HandleOperationFunc op f = .error Panic.nilPointerDereference := by
  unfold Entity.HandleOperationFunc
  simp [hnil]

/-- First registration wins where `op` is not bound to the nil interface.  If the map of
`e` has no entry for `op`, then `HandleOperationFunc(op, f1)` followed by
`HandleOperationFunc(op, f2)` both return and the handler registered for `op` is the
adapter of `f1`.  If `op` is bound to a non-nil handler, `HandleOperationFunc(op, f)`
returns the Entity unchanged, and `HandleOperation(op, h)` returns it unchanged for any
present entry. -/
theorem first_registration_wins_unless_nil_bound (e : Entity) (op : EntityOperation)
    (f1 f2 : HandleOperation) (h : Option OperationHandler) :
    (e.lookupHandler op = none →
        ∃ e1 e2, e.HandleOperationFunc op f1 = .ok e1
          ∧ e1.HandleOperationFunc op f2 = .ok e2
          ∧ e2.lookupHandler op = some (some (HandleOperation.toHandler f1)))
      ∧ (∀ h0 : OperationHandler, e.lookupHandler op = some (some h0) →
          e.HandleOperationFunc op f1 = .ok e ∧ e.HandleOperation op h = .ok e)
      ∧ (∀ v : Option OperationHandler, e.lookupHandler op = some v →
          e.HandleOperation op h = .ok e) := by
  refine ⟨fun habs => ?_, fun h0 hp => ?_, fun v hp => ?_⟩
  · have hl : (e.setHandlers (Function.update (e.operationHandlers.getD HandlerMap.empty) op
        (some (some (HandleOperation.toHandler f1))))).lookupHandler op
        = some (some (HandleOperation.toHandler f1)) := by
      simp [lookupHandler_setHandlers]
    exact ⟨_, _, HandleOperationFunc_of_absent e op f1 habs,
      HandleOperationFunc_of_present _ op f2 _ hl, hl⟩
  · exact ⟨HandleOperationFunc_of_present e op f1 h0 hp,
      HandleOperation_of_present e op h _ hp⟩
  · exact HandleOperation_of_present e op h v hp

/-! ## Claims -/

/-- C1, evaluated on the code.  On a fresh Entity, `AuthenticateFunc(f, GetList)` leaves
the list as five copies of `EntityOperation(0)`, that is Create, followed by GetList:
Create is recorded although it does not occur in the operations passed.  For
`AuthenticateFunc(f, Create)` the list holds Create and does not hold GetList. -/
theorem AuthenticateFunc_fresh_records_zero_value (f : Authenticate) :
    (NewEntity.AuthenticateFunc f [EntityOperationGetList]).operationsForAuthentication
        = some [EntityOperationCreate, EntityOperationCreate, EntityOperationCreate,
            EntityOperationCreate, EntityOperationCreate, EntityOperationGetList]
      ∧ (NewEntity.AuthenticateFunc f [EntityOperationGetList]).recordedForAuthentication
          EntityOperationCreate
      ∧ EntityOperationCreate ∉ [EntityOperationGetList]
      ∧ (NewEntity.AuthenticateFunc f [EntityOperationCreate]).recordedForAuthentication
          EntityOperationCreate
      ∧ ¬ (NewEntity.AuthenticateFunc f [EntityOperationCreate]).recordedForAuthentication
          EntityOperationGetList := by
  refine ⟨rfl, ?_, by decide, ?_, ?_⟩ <;>
    simp [Entity.recordedForAuthentication, Entity.AuthenticateFunc, NewEntity,
      Entity.operationsForAuthentication, EntityOperationCreate, EntityOperationGetList,
      EntityOperationUpdate, EntityOperationDelete, EntityOperationGet]

/-- C2, evaluated on the code.  On a fresh Entity the map is nil and `HandleOperation`
assigns into it without allocating, which panics, for every operation and handler;
`HandleOperationFunc` allocates the map first and registers the adapter. -/
theorem HandleOperation_fresh_panics (op : EntityOperation) (h : Option OperationHandler)
    (f : HandleOperation) :
    NewEntity.HandleOperation op h = .error Panic.assignmentToEntryInNilMap
      ∧ ∃ e, NewEntity.HandleOperationFunc op f = .ok e
          ∧ e.lookupHandler op = some (some (HandleOperation.toHandler f)) := by
  refine ⟨rfl, _, HandleOperationFunc_of_absent NewEntity op f rfl, ?_⟩
  simp [lookupHandler_setHandlers]

/-- C3, evaluated on the code.  On a fresh Entity, `HandleOperationFunc(Create, f)` followed
by `HandleOperation(Update, nil)` leaves Update bound to the nil interface.  In that state
`HandleOperationFunc(Update, g)` registers nothing and panics when its last statement
takes the method value of the nil interface, whereas `HandleOperation(Update, h)` returns
the Entity unchanged. -/
theorem HandleOperationFunc_panics_on_nil_bound (f g : HandleOperation)
    (h : Option OperationHandler) :
    NewEntity.HandleOperationFunc EntityOperationCreate f = .ok (entityWithCreate f)
      ∧ (entityWithCreate f).HandleOperation EntityOperationUpdate none
          = .ok (entityWithNilUpdate f)
      ∧ (entityWithNilUpdate f).lookupHandler EntityOperationUpdate = some none
      ∧ (entityWithNilUpdate f).HandleOperationFunc EntityOperationUpdate g
          = .error Panic.nilPointerDereference
      ∧ (entityWithNilUpdate f).HandleOperation EntityOperationUpdate h
          = .ok (entityWithNilUpdate f) := by
  have hnil : (entityWithNilUpdate f).lookupHandler EntityOperationUpdate = some none := by
    simp [entityWithNilUpdate, lookupHandler_setHandlers]
  exact ⟨rfl, rfl, hnil, HandleOperationFunc_of_nil_bound _ _ g hnil,
    HandleOperation_of_present _ _ h none hnil⟩

/-- C4, evaluated on the code.  `HTTPMethod` of Get is the empty string, not "GET"; the
other four operations give POST, PUT, DELETE and GET. -/
theorem HTTPMethod_get_is_not_GET :
    EntityOperationGet.HTTPMethod = ""
      ∧ EntityOperationGet.HTTPMethod ≠ "GET"
      ∧ EntityOperationCreate.HTTPMethod = "POST"
      ∧ EntityOperationUpdate.HTTPMethod = "PUT"
      ∧ EntityOperationDelete.HTTPMethod = "DELETE"
      ∧ EntityOperationGetList.HTTPMethod = "GET" := by
  refine ⟨by decide, by decide, by decide, by decide, by decide, by decide⟩

/-- C5.  `HTTPMethod` is the empty string for Get, is non-empty for Create, Update,
Delete and GetList, and is the empty string for every value that is none of the five
declared operations. -/
theorem HTTPMethod_empty_for_get_and_undeclared :
    EntityOperationGet.HTTPMethod = ""
      ∧ EntityOperationCreate.HTTPMethod ≠ ""
      ∧ EntityOperationUpdate.HTTPMethod ≠ ""
      ∧ EntityOperationDelete.HTTPMethod ≠ ""
      ∧ EntityOperationGetList.HTTPMethod ≠ ""
      ∧ ∀ op : EntityOperation, op ≠ EntityOperationCreate → op ≠ EntityOperationUpdate →
          op ≠ EntityOperationDelete → op ≠ EntityOperationGet →
          op ≠ EntityOperationGetList → op.HTTPMethod = "" := by
  refine ⟨by decide, by decide, by decide, by decide, by decide, ?_⟩
  intro op h1 h2 h3 h4 h5
  simp [EntityOperation.HTTPMethod, h1, h2, h3, h4, h5]

/-- C5 at the undeclared value 7. -/
theorem HTTPMethod_empty_for_get_and_undeclared_witness :
    (EntityOperation.mk 7).HTTPMethod = "" :=
  HTTPMethod_empty_for_get_and_undeclared.2.2.2.2.2 (EntityOperation.mk 7)
    (by decide) (by decide) (by decide) (by decide) (by decide)

/-- C6.  For each of the five operations `BuildPath` returns the path of the reference
definition: the base for Create and GetList, the base followed by the identifier
segment for Get, Update and Delete. -/
theorem BuildPath_eq_reference (op : EntityOperation) (basePath pfx : String)
    (hop : op ∈ [EntityOperationCreate, EntityOperationUpdate, EntityOperationDelete,
      EntityOperationGet, EntityOperationGetList]) :
    BuildPath_reference op basePath pfx = some (op.BuildPath basePath pfx) := by
  have hid : ∀ s : String, s ++ "/" ++ "\x7bid:[0-9]+\x7d" = s ++ "/\x7bid:[0-9]+\x7d" := by
    intro s
    rw [String.append_assoc]
    rfl
  simp only [List.mem_cons, List.mem_singleton, List.not_mem_nil, or_false] at hop
  by_cases hp : pfx = ""
  · rcases hop with h | h | h | h | h <;> subst h <;>
      simp [BuildPath_reference, EntityOperation.BuildPath, hp, hid, EntityOperationCreate,
        EntityOperationUpdate, EntityOperationDelete, EntityOperationGet,
        EntityOperationGetList]
  · rcases hop with h | h | h | h | h <;> subst h <;>
      simp [BuildPath_reference, EntityOperation.BuildPath, hp, hid, EntityOperationCreate,
        EntityOperationUpdate, EntityOperationDelete, EntityOperationGet,
        EntityOperationGetList]

/-- C6 at Update with base path "/widgets" and the empty prefix. -/
theorem BuildPath_eq_reference_witness :
    EntityOperationUpdate ∈ [EntityOperationCreate, EntityOperationUpdate,
        EntityOperationDelete, EntityOperationGet, EntityOperationGetList]
      ∧ BuildPath_reference EntityOperationUpdate "/widgets" ""
          = some (EntityOperationUpdate.BuildPath "/widgets" "")
      ∧ EntityOperationUpdate.BuildPath "/widgets" "" = "/widgets/\x7bid:[0-9]+\x7d"
      ∧ EntityOperationCreate.BuildPath "/widgets" "" = "/widgets" :=
  ⟨by decide, BuildPath_eq_reference EntityOperationUpdate "/widgets" "" (by decide),
    by decide, by decide⟩

/-- C7 as stated fails: for Create with base path "/items" and prefix "/orders" the
result is "/orders//items", which is not "/orders/items". -/
theorem BuildPath_nested_create_double_slash :
    EntityOperationCreate.BuildPath "/items" "/orders" = "/orders//items"
      ∧ EntityOperationCreate.BuildPath "/items" "/orders" ≠ "/orders/items" := by
  constructor <;> decide

/-- C7 amended.  For every non-empty prefix and every base path the Create path is the
prefix, one inserted "/", and the base path as it is; a base path that itself begins
with "/" therefore follows the inserted slash directly. -/
theorem BuildPath_create_inserts_slash (basePath pfx : String) (hp : pfx ≠ "") :
    EntityOperationCreate.BuildPath basePath pfx = pfx ++ "/" ++ basePath
      ∧ ∀ rest : String, basePath = "/" ++ rest →
          EntityOperationCreate.BuildPath basePath pfx = pfx ++ "//" ++ rest := by
  have h : EntityOperationCreate.BuildPath basePath pfx = pfx ++ "/" ++ basePath := by
    simp [EntityOperation.BuildPath, hp, EntityOperationCreate, EntityOperationUpdate,
      EntityOperationDelete, EntityOperationGet]
  refine ⟨h, fun rest hr => ?_⟩
  rw [h, hr, String.append_assoc, String.append_assoc, ← String.append_assoc "/" "/" rest]
  rfl

/-- C7 amended, at base path "/items" and prefix "/orders". -/
theorem BuildPath_create_inserts_slash_witness :
    "/orders" ≠ ""
      ∧ EntityOperationCreate.BuildPath "/items" "/orders" = "/orders" ++ "/" ++ "/items"
      ∧ EntityOperationCreate.BuildPath "/items" "/orders" = "/orders" ++ "//" ++ "items" :=
  ⟨by decide, (BuildPath_create_inserts_slash "/items" "/orders" (by decide)).1,
    (BuildPath_create_inserts_slash "/items" "/orders" (by decide)).2 "items" (by decide)⟩

/-- C8 as stated fails: with the different strings "/" and "/x", `WithPath("/")` followed
by `WithPath("/x")` on a fresh Entity leaves the base path "/x", not the first value. -/
theorem WithPath_default_value_does_not_stick :
    "/" ≠ "/x"
      ∧ ((NewEntity.WithPath "/").WithPath "/x").basePath = "/x"
      ∧ ((NewEntity.WithPath "/").WithPath "/x").basePath ≠ "/" := by
  refine ⟨by decide, by decide, by decide⟩

/-- C8 amended.  On a fresh Entity, `WithPath(p1)` followed by `WithPath(p2)` leaves the
base path `p1` when `p1` is not the default "/", and `p2` when it is; and on every
Entity whose base path is not "/", `WithPath` changes nothing. -/
theorem WithPath_first_non_default_wins (p1 p2 : String) :
    (p1 ≠ "/" → ((NewEntity.WithPath p1).WithPath p2).basePath = p1)
      ∧ (p1 = "/" → ((NewEntity.WithPath p1).WithPath p2).basePath = p2)
      ∧ ∀ e : Entity, e.basePath ≠ "/" → e.WithPath p2 = e := by
  refine ⟨fun h => ?_, fun h => ?_, fun e he => ?_⟩
  · simp [Entity.WithPath, NewEntity, Entity.basePath, h]
  · subst h
    simp [Entity.WithPath, NewEntity, Entity.basePath]
  · simp [Entity.WithPath, he]

/-- C8 amended, at "/a" then "/b", at "/" then "/b", and on an Entity with base path
"/a". -/
theorem WithPath_first_non_default_wins_witness :
    ((NewEntity.WithPath "/a").WithPath "/b").basePath = "/a"
      ∧ ((NewEntity.WithPath "/").WithPath "/b").basePath = "/b"
      ∧ (NewEntity.WithPath "/a").WithPath "/b" = NewEntity.WithPath "/a" :=
  ⟨(WithPath_first_non_default_wins "/a" "/b").1 (by decide),
    (WithPath_first_non_default_wins "/" "/b").2.1 rfl,
    (WithPath_first_non_default_wins "/a" "/b").2.2 (NewEntity.WithPath "/a") (by decide)⟩

/-- C9.  The base path after `WithPath(p)` is that of the reference definition: `p` when
the old base path is the default "/", and the old base path otherwise. -/
theorem WithPath_eq_reference (e : Entity) (p : String) :
    (e.WithPath p).basePath = WithPath_reference e.basePath p := by
  unfold Entity.WithPath WithPath_reference
  by_cases h : e.basePath = "/"
  · rw [if_pos h, if_pos h]
    rfl
  · rw [if_neg h, if_neg h]

/-- C10.  After `AuthenticateFunc(f)` without operations, on every Entity, each of
Create, Update, Delete, Get and GetList is recorded for authentication. -/
theorem AuthenticateFunc_default_scope (e : Entity) (f : Authenticate) :
    (e.AuthenticateFunc f []).recordedForAuthentication EntityOperationCreate
      ∧ (e.AuthenticateFunc f []).recordedForAuthentication EntityOperationUpdate
      ∧ (e.AuthenticateFunc f []).recordedForAuthentication EntityOperationDelete
      ∧ (e.AuthenticateFunc f []).recordedForAuthentication EntityOperationGet
      ∧ (e.AuthenticateFunc f []).recordedForAuthentication EntityOperationGetList := by
  simp [Entity.recordedForAuthentication, Entity.AuthenticateFunc,
    Entity.operationsForAuthentication]

/-- C11.  On an Entity without an authenticator, `AuthenticateFunc(f, ops...)` installs
the adapter of `f`; on an Entity that has one, `AuthenticateFunc(g, ops...)` keeps the
installed authenticator, for every `g` and `ops`. -/
theorem AuthenticateFunc_installs_once (e : Entity) (f g : Authenticate)
    (ops : List EntityOperation) :
    (e.Authenticationhandler = none →
        (e.AuthenticateFunc f ops).Authenticationhandler = some (Authenticate.toHandler f))
      ∧ (∀ a : Authenticationhandler, e.Authenticationhandler = some a →
          (e.AuthenticateFunc g ops).Authenticationhandler = some a) := by
  cases e with
  | mk b m a0 l z v c =>
    refine ⟨fun h => ?_, fun a h => ?_⟩
    · simp only [Entity.Authenticationhandler] at h
      subst h
      rfl
    · simp only [Entity.Authenticationhandler] at h
      subst h
      rfl

/-- C11 on the fresh Entity, and on the Entity that `AuthenticateFunc` made of it. -/
theorem AuthenticateFunc_installs_once_witness :
    (NewEntity.AuthenticateFunc (fun _ => true) [EntityOperationCreate]).Authenticationhandler
        = some (Authenticate.toHandler (fun _ => true))
      ∧ ((NewEntity.AuthenticateFunc (fun _ => true) [EntityOperationCreate]).AuthenticateFunc
            (fun _ => false) []).Authenticationhandler
          = some (Authenticate.toHandler (fun _ => true)) :=
  ⟨(AuthenticateFunc_installs_once NewEntity (fun _ => true) (fun _ => false)
      [EntityOperationCreate]).1 rfl,
   (AuthenticateFunc_installs_once (NewEntity.AuthenticateFunc (fun _ => true)
      [EntityOperationCreate]) (fun _ => true) (fun _ => false) []).2
      (Authenticate.toHandler (fun _ => true)) rfl⟩

/-- C12.  On an Entity without an authorizer `AuthorizeFunc(f)` installs the adapter of
`f`, and on an Entity that has one `AuthorizeFunc(g)` returns the Entity unchanged, so
`AuthorizeFunc(f)` followed by `AuthorizeFunc(g)` keeps `f`; likewise for `ValidateFunc`
and the validator. -/
theorem AuthorizeFunc_ValidateFunc_install_once (e : Entity) (f g : Authorize)
    (v w : Validate) :
    (e.AuthorizationHandler = none →
        (e.AuthorizeFunc f).AuthorizationHandler = some (Authorize.toHandler f)
          ∧ (e.AuthorizeFunc f).AuthorizeFunc g = e.AuthorizeFunc f)
      ∧ (e.AuthorizationHandler ≠ none → e.AuthorizeFunc g = e)
      ∧ (e.InputValidationHandler = none →
        (e.ValidateFunc v).InputValidationHandler = some (Validate.toHandler v)
          ∧ (e.ValidateFunc v).ValidateFunc w = e.ValidateFunc v)
      ∧ (e.InputValidationHandler ≠ none → e.ValidateFunc w = e) := by
  cases e with
  | mk b m a l z0 v0 c =>
    refine ⟨fun h => ?_, fun h => ?_, fun h => ?_, fun h => ?_⟩
    · simp only [Entity.AuthorizationHandler] at h
      subst h
      exact ⟨rfl, rfl⟩
    · cases z0 with
      | none => exact absurd rfl h
      | some z => rfl
    · simp only [Entity.InputValidationHandler] at h
      subst h
      exact ⟨rfl, rfl⟩
    · cases v0 with
      | none => exact absurd rfl h
      | some x => rfl

/-- C12 on the fresh Entity, and on the Entities that hold an authorizer, respectively
a validator. -/
theorem AuthorizeFunc_ValidateFunc_install_once_witness :
    ((NewEntity.AuthorizeFunc (fun _ => true)).AuthorizationHandler
          = some (Authorize.toHandler (fun _ => true))
        ∧ (NewEntity.AuthorizeFunc (fun _ => true)).AuthorizeFunc (fun _ => false)
          = NewEntity.AuthorizeFunc (fun _ => true))
      ∧ (NewEntity.AuthorizeFunc (fun _ => true)).AuthorizeFunc (fun _ => false)
          = NewEntity.AuthorizeFunc (fun _ => true)
      ∧ ((NewEntity.ValidateFunc (fun _ => true)).InputValidationHandler
          = some (Validate.toHandler (fun _ => true))
        ∧ (NewEntity.ValidateFunc (fun _ => true)).ValidateFunc (fun _ => false)
          = NewEntity.ValidateFunc (fun _ => true))
      ∧ (NewEntity.ValidateFunc (fun _ => true)).ValidateFunc (fun _ => false)
          = NewEntity.ValidateFunc (fun _ => true) :=
  ⟨(AuthorizeFunc_ValidateFunc_install_once NewEntity (fun _ => true) (fun _ => false)
      (fun _ => true) (fun _ => false)).1 rfl,
   (AuthorizeFunc_ValidateFunc_install_once (NewEntity.AuthorizeFunc (fun _ => true))
      (fun _ => true) (fun _ => false) (fun _ => true) (fun _ => false)).2.1
      (by simp [Entity.AuthorizeFunc, NewEntity, Entity.AuthorizationHandler]),
   (AuthorizeFunc_ValidateFunc_install_once NewEntity (fun _ => true) (fun _ => false)
      (fun _ => true) (fun _ => false)).2.2.1 rfl,
   (AuthorizeFunc_ValidateFunc_install_once (NewEntity.ValidateFunc (fun _ => true))
      (fun _ => true) (fun _ => false) (fun _ => true) (fun _ => false)).2.2.2
      (by simp [Entity.ValidateFunc, NewEntity, Entity.InputValidationHandler])⟩

/-- C13.  After `ForChild(c, more...)` the children are the old children, then `c`, then
`more`, for every Entity, child and list `more` (empty or not); the length grows by
one plus the length of `more`. -/
theorem ForChild_appends_in_order (e c : Entity) (more : List Entity) :
    (e.ForChild c more).children = e.children ++ [c] ++ more
      ∧ (e.ForChild c more).children.length = e.children.length + (1 + more.length) := by
  have h : (e.ForChild c more).children = e.children ++ [c] ++ more := by
    cases more with
    | nil => simp [Entity.ForChild, Entity.children]
    | cons x xs => simp [Entity.ForChild, Entity.children]
  refine ⟨h, ?_⟩
  rw [h]
  simp [List.length_append]
  omega

/-- C14.  For a non-nil handler object the object form of each builder returns the state
of the function form applied to the object's method: `Authticate`, `Authorize` and
`Validate` against `AuthenticateFunc`, `AuthorizeFunc` and `ValidateFunc`.  Each
function adapter, also when stored in its interface, returns what the wrapped
function returns. -/
theorem object_form_eq_function_form (e : Entity) (ha : Authenticationhandler)
    (hz : AuthorizationHandler) (hv : InputValidationHandler) (ops : List EntityOperation)
    (f : Authenticate) (g : Authorize) (v : Validate) (k : HandleOperation)
    (i : AuthenticateInput) (j : AuthorizationInput) (l : ValidationInput) (r : RouteDetail) :
    e.Authticate (some ha) ops = .ok (e.AuthenticateFunc ha.Authenticate ops)
      ∧ e.Authorize (some hz) = .ok (e.AuthorizeFunc hz.Authorize)
      ∧ e.Validate (some hv) = .ok (e.ValidateFunc hv.Validate)
      ∧ Authenticate.Authenticate f i = f i
      ∧ Authorize.Authorize g j = g j
      ∧ Validate.Validate v l = v l
      ∧ HandleOperation.HandleOperation k r = k r
      ∧ (Authenticate.toHandler f).Authenticate i = f i
      ∧ (Authorize.toHandler g).Authorize j = g j
      ∧ (Validate.toHandler v).Validate l = v l
      ∧ (HandleOperation.toHandler k).HandleOperation r = k r :=
  ⟨rfl, rfl, rfl, rfl, rfl, rfl, rfl, rfl, rfl, rfl, rfl⟩

/-- C15.  `NewEntity` has base path "/", a nil handler map in which no operation has a
handler, no authenticator, a nil list of operations for authentication with no
operation recorded, no authorizer, no validator and no children. -/
theorem NewEntity_default_configuration :
    NewEntity.basePath = "/"
      ∧ NewEntity.operationHandlers = none
      ∧ (∀ op : EntityOperation, NewEntity.lookupHandler op = none)
      ∧ NewEntity.Authenticationhandler = none
      ∧ NewEntity.operationsForAuthentication = none
      ∧ (∀ op : EntityOperation, ¬ NewEntity.recordedForAuthentication op)
      ∧ NewEntity.AuthorizationHandler = none
      ∧ NewEntity.InputValidationHandler = none
      ∧ NewEntity.children = [] := by
  refine ⟨rfl, rfl, fun _ => rfl, rfl, rfl, fun op => ?_, rfl, rfl, rfl⟩
  simp [Entity.recordedForAuthentication, NewEntity, Entity.operationsForAuthentication]

/-- C16.  In the composed handler the stages invoked form a subsequence of Authenticate,
Authorize, Validate, Handle, in this order.  If authentication is required for the
operation and the authenticator returns false, only Authenticate is invoked and the
request is rejected by it.  If the authorizer returns false, Validate and the handler
are not invoked and the request is rejected; if the validator returns false, the
handler is not invoked and the request is rejected.  The handler's status and body are
written exactly when the handler is invoked. -/
theorem composedHandler_short_circuit (e : Entity) (op : EntityOperation)
    (handler : OperationHandler) (r : RouteDetail) :
    List.Sublist (composedHandler e op handler r).1
        [Stage.Authenticate, Stage.Authorize, Stage.Validate, Stage.Handle]
      ∧ (∀ a : Authenticationhandler, e.Authenticationhandler = some a →
          e.recordedForAuthentication op → a.Authenticate r.toAuthenticateInput = false →
          composedHandler e op handler r
            = ([Stage.Authenticate], Response.rejected Stage.Authenticate))
      ∧ (∀ z : AuthorizationHandler, e.AuthorizationHandler = some z →
          z.Authorize r.toAuthorizationInput = false →
          Stage.Validate ∉ (composedHandler e op handler r).1
            ∧ Stage.Handle ∉ (composedHandler e op handler r).1
            ∧ ∃ s, (composedHandler e op handler r).2 = Response.rejected s)
      ∧ (∀ v : InputValidationHandler, e.InputValidationHandler = some v →
          v.Validate r.toValidationInput = false →
          Stage.Handle ∉ (composedHandler e op handler r).1
            ∧ ∃ s, (composedHandler e op handler r).2 = Response.rejected s)
      ∧ (Stage.Handle ∈ (composedHandler e op handler r).1 ↔
          (composedHandler e op handler r).2
            = Response.handled (handler.HandleOperation r).1 (handler.HandleOperation r).2) := by
  cases e with
  | mk b m a l z v c =>
    unfold composedHandler
    simp only [Entity.Authenticationhandler, Entity.AuthorizationHandler,
      Entity.InputValidationHandler]
    cases hreq : decide ((Entity.mk b m a l z v c).recordedForAuthentication op) <;>
      rcases a with _ | a <;> rcases z with _ | z <;> rcases v with _ | v <;>
      (try cases ha : a.Authenticate r.toAuthenticateInput) <;>
      (try cases hz : z.Authorize r.toAuthorizationInput) <;>
      (try cases hv : v.Validate r.toValidationInput) <;>
      simp_all

/-- C16 on an Entity whose three stages all reject, for a Create request (rejected by the
authenticator) and a GetList request (rejected by the authorizer), and on an Entity with
only a rejecting validator. -/
theorem composedHandler_short_circuit_witness :
    composedHandler entityRejectingAll EntityOperationCreate
          (HandleOperation.toHandler (fun _ => (200, []))) sampleRouteDetail
        = ([Stage.Authenticate], Response.rejected Stage.Authenticate)
      ∧ (Stage.Validate ∉ (composedHandler entityRejectingAll EntityOperationGetList
            (HandleOperation.toHandler (fun _ => (200, []))) sampleRouteDetail).1
        ∧ Stage.Handle ∉ (composedHandler entityRejectingAll EntityOperationGetList
            (HandleOperation.toHandler (fun _ => (200, []))) sampleRouteDetail).1
        ∧ ∃ s, (composedHandler entityRejectingAll EntityOperationGetList
            (HandleOperation.toHandler (fun _ => (200, []))) sampleRouteDetail).2
              = Response.rejected s)
      ∧ (Stage.Handle ∉ (composedHandler entityRejectingValidation EntityOperationCreate
            (HandleOperation.toHandler (fun _ => (200, []))) sampleRouteDetail).1
        ∧ ∃ s, (composedHandler entityRejectingValidation EntityOperationCreate
            (HandleOperation.toHandler (fun _ => (200, []))) sampleRouteDetail).2
              = Response.rejected s) :=
  ⟨(composedHandler_short_circuit entityRejectingAll EntityOperationCreate
      (HandleOperation.toHandler (fun _ => (200, []))) sampleRouteDetail).2.1
      (Authenticate.toHandler (fun _ => false)) rfl (by decide) rfl,
   (composedHandler_short_circuit entityRejectingAll EntityOperationGetList
      (HandleOperation.toHandler (fun _ => (200, []))) sampleRouteDetail).2.2.1
      (Authorize.toHandler (fun _ => false)) rfl rfl,
   (composedHandler_short_circuit entityRejectingValidation EntityOperationCreate
      (HandleOperation.toHandler (fun _ => (200, []))) sampleRouteDetail).2.2.2.1
      (Validate.toHandler (fun _ => false)) rfl rfl⟩

/-- C17.  Frame of the builders.  `WithPath` keeps every field but the base path.
`HandleOperationFunc`, which returns whenever `op` is not bound to the nil interface,
keeps every field but the handler map and keeps the map read of every other operation.
`AuthenticateFunc` keeps every field but the authenticator and the operations for
authentication; `AuthorizeFunc` every field but the authorizer; `ValidateFunc` every
field but the validator; `ForChild` every field but the children. -/
theorem builders_change_only_their_part (e : Entity) (p : String) (op : EntityOperation)
    (k : HandleOperation) (f : Authenticate) (ops : List EntityOperation) (g : Authorize)
    (v : Validate) (c : Entity) (more : List Entity) :
    ((e.WithPath p).operationHandlers = e.operationHandlers
        ∧ (e.WithPath p).Authenticationhandler = e.Authenticationhandler
        ∧ (e.WithPath p).operationsForAuthentication = e.operationsForAuthentication
        ∧ (e.WithPath p).AuthorizationHandler = e.AuthorizationHandler
        ∧ (e.WithPath p).InputValidationHandler = e.InputValidationHandler
        ∧ (e.WithPath p).children = e.children)
      ∧ (∀ e1 : Entity, e.HandleOperationFunc op k = .ok e1 →
          e1.basePath = e.basePath
            ∧ e1.Authenticationhandler = e.Authenticationhandler
            ∧ e1.operationsForAuthentication = e.operationsForAuthentication
            ∧ e1.AuthorizationHandler = e.AuthorizationHandler
            ∧ e1.InputValidationHandler = e.InputValidationHandler
            ∧ e1.children = e.children
            ∧ ∀ op1 : EntityOperation, op1 ≠ op → e1.lookupHandler op1 = e.lookupHandler op1)
      ∧ (e.lookupHandler op ≠ some none → ∃ e1 : Entity, e.HandleOperationFunc op k = .ok e1)
      ∧ ((e.AuthenticateFunc f ops).basePath = e.basePath
        ∧ (e.AuthenticateFunc f ops).operationHandlers = e.operationHandlers
        ∧ (e.AuthenticateFunc f ops).AuthorizationHandler = e.AuthorizationHandler
        ∧ (e.AuthenticateFunc f ops).InputValidationHandler = e.InputValidationHandler
        ∧ (e.AuthenticateFunc f ops).children = e.children)
      ∧ ((e.AuthorizeFunc g).basePath = e.basePath
        ∧ (e.AuthorizeFunc g).operationHandlers = e.operationHandlers
        ∧ (e.AuthorizeFunc g).Authenticationhandler = e.Authenticationhandler
        ∧ (e.AuthorizeFunc g).operationsForAuthentication = e.operationsForAuthentication
        ∧ (e.AuthorizeFunc g).InputValidationHandler = e.InputValidationHandler
        ∧ (e.AuthorizeFunc g).children = e.children)
      ∧ ((e.ValidateFunc v).basePath = e.basePath
        ∧ (e.ValidateFunc v).operationHandlers = e.operationHandlers
        ∧ (e.ValidateFunc v).Authenticationhandler = e.Authenticationhandler
        ∧ (e.ValidateFunc v).operationsForAuthentication = e.operationsForAuthentication
        ∧ (e.ValidateFunc v).AuthorizationHandler = e.AuthorizationHandler
        ∧ (e.ValidateFunc v).children = e.children)
      ∧ ((e.ForChild c more).basePath = e.basePath
        ∧ (e.ForChild c more).operationHandlers = e.operationHandlers
        ∧ (e.ForChild c more).Authenticationhandler = e.Authenticationhandler
        ∧ (e.ForChild c more).operationsForAuthentication = e.operationsForAuthentication
        ∧ (e.ForChild c more).AuthorizationHandler = e.AuthorizationHandler
        ∧ (e.ForChild c more).InputValidationHandler = e.InputValidationHandler) := by
  refine ⟨?_, ?_, ?_, ⟨rfl, rfl, rfl, rfl, rfl⟩, ?_, ?_, ⟨rfl, rfl, rfl, rfl, rfl, rfl⟩⟩
  · unfold Entity.WithPath
    by_cases hb : e.basePath = "/"
    · rw [if_pos hb]
      exact ⟨rfl, rfl, rfl, rfl, rfl, rfl⟩
    · rw [if_neg hb]
      exact ⟨rfl, rfl, rfl, rfl, rfl, rfl⟩
  · intro e1 hok
    cases hl : e.lookupHandler op with
    | none =>
      rw [HandleOperationFunc_of_absent e op k hl] at hok
      cases hok
      refine ⟨rfl, rfl, rfl, rfl, rfl, rfl, fun op1 hne => ?_⟩
      rw [lookupHandler_setHandlers, Function.update_noteq hne, lookupHandler_eq_getD]
    | some x =>
      cases x with
      | none =>
        unfold Entity.HandleOperationFunc at hok
        simp [hl] at hok
      | some h0 =>
        rw [HandleOperationFunc_of_present e op k h0 hl] at hok
        cases hok
        exact ⟨rfl, rfl, rfl, rfl, rfl, rfl, fun _ _ => rfl⟩
  · intro hne
    cases hl : e.lookupHandler op with
    | none => exact ⟨_, HandleOperationFunc_of_absent e op k hl⟩
    | some x =>
      cases x with
      | none => exact absurd hl hne
      | some h0 => exact ⟨_, HandleOperationFunc_of_present e op k h0 hl⟩
  · cases e with
    | mk b m a l z w cs =>
      cases z <;> exact ⟨rfl, rfl, rfl, rfl, rfl, rfl⟩
  · cases e with
    | mk b m a l z w cs =>
      cases w <;> exact ⟨rfl, rfl, rfl, rfl, rfl, rfl⟩

/-- C17 on the fresh Entity: registering a Create handler through `HandleOperationFunc`
returns, keeps the base path and keeps the map read of Update. -/
theorem builders_change_only_their_part_witness :
    ((entityWithCreate (fun _ => (200, []))).basePath = NewEntity.basePath
        ∧ (entityWithCreate (fun _ => (200, []))).lookupHandler EntityOperationUpdate
          = NewEntity.lookupHandler EntityOperationUpdate)
      ∧ ∃ e1 : Entity,
          NewEntity.HandleOperationFunc EntityOperationCreate (fun _ => (200, [])) = .ok e1 :=
  ⟨⟨((builders_change_only_their_part NewEntity "/a" EntityOperationCreate
        (fun _ => (200, [])) (fun _ => true) [] (fun _ => true) (fun _ => true) NewEntity
        []).2.1 (entityWithCreate (fun _ => (200, []))) rfl).1,
     ((builders_change_only_their_part NewEntity "/a" EntityOperationCreate
        (fun _ => (200, [])) (fun _ => true) [] (fun _ => true) (fun _ => true) NewEntity
        []).2.1 (entityWithCreate (fun _ => (200, []))) rfl).2.2.2.2.2.2
        EntityOperationUpdate (by decide)⟩,
   (builders_change_only_their_part NewEntity "/a" EntityOperationCreate
      (fun _ => (200, [])) (fun _ => true) [] (fun _ => true) (fun _ => true) NewEntity
      []).2.2.1 (by intro h; cases h)⟩

/-- C18.  On a fresh Entity, `AuthenticateFunc(f, ops...)` leaves the list of operations
for authentication as five copies of Create followed by `ops` when `ops` is non-empty,
and followed by Create, Update, Delete, Get, GetList when `ops` is empty; its length is
five plus the length of `ops`, respectively ten, and Create is recorded in both
cases. -/
theorem AuthenticateFunc_fresh_list_shape (f : Authenticate) (ops : List EntityOperation) :
    (ops ≠ [] →
        (NewEntity.AuthenticateFunc f ops).operationsForAuthentication
            = some (List.replicate 5 EntityOperationCreate ++ ops)
          ∧ ((NewEntity.AuthenticateFunc f ops).operationsForAuthentication.getD []).length
            = 5 + ops.length)
      ∧ (NewEntity.AuthenticateFunc f []).operationsForAuthentication
          = some (List.replicate 5 EntityOperationCreate ++
              [EntityOperationCreate, EntityOperationUpdate, EntityOperationDelete,
                EntityOperationGet, EntityOperationGetList])
      ∧ ((NewEntity.AuthenticateFunc f []).operationsForAuthentication.getD []).length = 10
      ∧ (NewEntity.AuthenticateFunc f ops).recordedForAuthentication EntityOperationCreate := by
  refine ⟨fun hne => ?_, rfl, rfl, ?_⟩
  · have hlen : ¬ ops.length = 0 := fun h => hne (List.length_eq_zero.mp h)
    have hs : (NewEntity.AuthenticateFunc f ops).operationsForAuthentication
        = some (List.replicate 5 EntityOperationCreate ++ ops) := by
      simp [Entity.AuthenticateFunc, NewEntity, Entity.operationsForAuthentication, hne,
        EntityOperationCreate]
    refine ⟨hs, ?_⟩
    rw [hs]
    simp
    omega
  · by_cases hne : ops = []
    · subst hne
      simp [Entity.recordedForAuthentication, Entity.AuthenticateFunc, NewEntity,
        Entity.operationsForAuthentication, EntityOperationCreate]
    · simp [Entity.recordedForAuthentication, Entity.AuthenticateFunc, NewEntity,
        Entity.operationsForAuthentication, hne, EntityOperationCreate]

/-- C18 for the single operation GetList. -/
theorem AuthenticateFunc_fresh_list_shape_witness :
    (NewEntity.AuthenticateFunc (fun _ => true) [EntityOperationGetList]).operationsForAuthentication
        = some (List.replicate 5 EntityOperationCreate ++ [EntityOperationGetList])
      ∧ ((NewEntity.AuthenticateFunc (fun _ => true)
            [EntityOperationGetList]).operationsForAuthentication.getD []).length = 5 + 1 :=
  (AuthenticateFunc_fresh_list_shape (fun _ => true) [EntityOperationGetList]).1 (by decide)

/-- C19.  On an Entity whose list of operations for authentication is allocated as `L`,
`AuthenticateFunc(g, ops...)` leaves the list `L ++ ops` when `ops` is non-empty and
`L` followed by Create, Update, Delete, Get, GetList when it is empty.  Every operation
recorded before stays recorded, the list is never left as it was, and an installed
authenticator is kept. -/
theorem AuthenticateFunc_accumulates (e : Entity) (L : List EntityOperation)
    (g : Authenticate) (ops : List EntityOperation)
    (hL : e.operationsForAuthentication = some L) :
    (ops ≠ [] → (e.AuthenticateFunc g ops).operationsForAuthentication = some (L ++ ops))
      ∧ (e.AuthenticateFunc g []).operationsForAuthentication
          = some (L ++ [EntityOperationCreate, EntityOperationUpdate, EntityOperationDelete,
              EntityOperationGet, EntityOperationGetList])
      ∧ (∀ op : EntityOperation, e.recordedForAuthentication op →
          (e.AuthenticateFunc g ops).recordedForAuthentication op)
      ∧ (e.AuthenticateFunc g ops).operationsForAuthentication ≠ e.operationsForAuthentication
      ∧ (∀ a : Authenticationhandler, e.Authenticationhandler = some a →
          (e.AuthenticateFunc g ops).Authenticationhandler = some a) := by
  cases e with
  | mk b m a0 l z v c =>
    simp only [Entity.operationsForAuthentication] at hL
    subst hL
    have hnonempty : ((Entity.mk b m a0 (some L) z v c).AuthenticateFunc g
          ops).operationsForAuthentication
        = some (L ++ if ops.length = 0 then
            [EntityOperationCreate, EntityOperationUpdate, EntityOperationDelete,
              EntityOperationGet, EntityOperationGetList] else ops) := by
      by_cases h0 : ops.length = 0
      · simp [Entity.AuthenticateFunc, Entity.operationsForAuthentication, h0]
      · simp [Entity.AuthenticateFunc, Entity.operationsForAuthentication, h0]
    refine ⟨fun hne => ?_, rfl, fun op hop => ?_, ?_, fun a ha => ?_⟩
    · have h0 : ¬ ops.length = 0 := fun h => hne (List.length_eq_zero.mp h)
      rw [hnonempty, if_neg h0]
    · unfold Entity.recordedForAuthentication at hop ⊢
      rw [hnonempty]
      simp only [Entity.operationsForAuthentication, Option.getD_some] at hop ⊢
      exact List.mem_append_left _ hop
    · rw [hnonempty]
      simp only [Entity.operationsForAuthentication]
      intro heq
      have hlen := congrArg List.length (Option.some.inj heq)
      rw [List.length_append] at hlen
      by_cases h0 : ops.length = 0
      · rw [if_pos h0] at hlen
        simp at hlen
      · rw [if_neg h0] at hlen
        omega
    · simp only [Entity.Authenticationhandler] at ha
      subst ha
      rfl

/-- C19 on the Entity left by `AuthenticateFunc(f, Create)`, calling
`AuthenticateFunc(g, GetList)`. -/
theorem AuthenticateFunc_accumulates_witness :
    ((NewEntity.AuthenticateFunc (fun _ => true) [EntityOperationCreate]).AuthenticateFunc
          (fun _ => false) [EntityOperationGetList]).operationsForAuthentication
        = some ((List.replicate 5 EntityOperationCreate ++ [EntityOperationCreate])
            ++ [EntityOperationGetList])
      ∧ ((NewEntity.AuthenticateFunc (fun _ => true) [EntityOperationCreate]).AuthenticateFunc
          (fun _ => false) [EntityOperationGetList]).recordedForAuthentication
          EntityOperationCreate
      ∧ ((NewEntity.AuthenticateFunc (fun _ => true) [EntityOperationCreate]).AuthenticateFunc
          (fun _ => false) [EntityOperationGetList]).Authenticationhandler
          = some (Authenticate.toHandler (fun _ => true)) :=
  ⟨(AuthenticateFunc_accumulates
      (NewEntity.AuthenticateFunc (fun _ => true) [EntityOperationCreate])
      (List.replicate 5 EntityOperationCreate ++ [EntityOperationCreate]) (fun _ => false)
      [EntityOperationGetList] rfl).1 (by decide),
   (AuthenticateFunc_accumulates
      (NewEntity.AuthenticateFunc (fun _ => true) [EntityOperationCreate])
      (List.replicate 5 EntityOperationCreate ++ [EntityOperationCreate]) (fun _ => false)
      [EntityOperationGetList] rfl).2.2.1 EntityOperationCreate (by decide),
   (AuthenticateFunc_accumulates
      (NewEntity.AuthenticateFunc (fun _ => true) [EntityOperationCreate])
      (List.replicate 5 EntityOperationCreate ++ [EntityOperationCreate]) (fun _ => false)
      [EntityOperationGetList] rfl).2.2.2.2 (Authenticate.toHandler (fun _ => true)) rfl⟩

/-- C20.  For every base path and prefix, two of the five declared operations with the
same route key, that is the same HTTP method and the same path, are the same operation;
and the path of Get differs from the path of GetList. -/
theorem routeKey_injective_on_declared (basePath pfx : String) :
    (∀ op1 op2 : EntityOperation, op1 ∈ declaredOperations → op2 ∈ declaredOperations →
        routeKey basePath pfx op1 = routeKey basePath pfx op2 → op1 = op2)
      ∧ EntityOperationGet.BuildPath basePath pfx
          ≠ EntityOperationGetList.BuildPath basePath pfx := by
  constructor
  · intro op1 op2 h1 h2 hk
    have hm : op1.HTTPMethod = op2.HTTPMethod := congrArg Prod.fst hk
    simp only [declaredOperations, List.mem_cons, List.mem_singleton, List.not_mem_nil,
      or_false] at h1 h2
    rcases h1 with rfl | rfl | rfl | rfl | rfl <;>
      rcases h2 with rfl | rfl | rfl | rfl | rfl <;>
      first
        | rfl
        | exact absurd hm (by decide)
  · have hg : EntityOperationGet.BuildPath basePath pfx
        = EntityOperationGetList.BuildPath basePath pfx ++ "/\x7bid:[0-9]+\x7d" := by
      have h2 : ¬ (EntityOperationGetList = EntityOperationGet
          ∨ EntityOperationGetList = EntityOperationUpdate
          ∨ EntityOperationGetList = EntityOperationDelete) := by decide
      simp only [EntityOperation.BuildPath]
      rw [if_pos (Or.inl trivial), if_neg h2, String.append_assoc]
      rfl
    rw [hg]
    exact append_ne_self_of_length_pos _ _ (by decide)

/-- C20 at Update against itself, for base path "/widgets" and the empty prefix. -/
theorem routeKey_injective_on_declared_witness :
    EntityOperationUpdate ∈ declaredOperations
      ∧ routeKey "/widgets" "" EntityOperationUpdate = ("PUT", "/widgets/\x7bid:[0-9]+\x7d")
      ∧ EntityOperationUpdate = EntityOperationUpdate :=
  ⟨by decide, by decide,
    (routeKey_injective_on_declared "/widgets" "").1 EntityOperationUpdate
      EntityOperationUpdate (by decide) (by decide) rfl⟩

end Mux
